import Mathlib

/-!
# Verification of the LBK points-transfer backend

Shallow embedding of the Go source (`main.go`, final revision with the
points-transfer subsystem): the `User` and `Transaction` GORM models, the
`registerHandler`, `transferHandler`, `recentTransactionsHandler` and
`searchUserHandler` request handlers, and the sequential state-transition
semantics of the shared SQLite store.

Modelling conventions:
* The SQLite/GORM store is a `DBState`: the `users` table, the
  append-only `transactions` table, the two autoincrement counters
  (starting at 1, as SQLite rowids do), and a logical clock standing for
  `time.Now()`; the clock strictly advances across sequential requests, so
  `CreatedAt` stamps are strictly increasing in insertion order.
* The JWT middleware's `db.First(&user, userID)` load of the caller is the
  `findById` lookup at the head of each protected handler.
* `tx.Model(&u).Update("points", v)` is `updatePointsById` (an UPDATE of
  the `points` column of the rows whose id matches).
* Infrastructure failures of the store (the rolled-back `tx` error
  branches) are outside the model: the semantics is the failure-free
  sequential one.  Handler error returns perform no store mutation, which
  the `…State` wrappers make explicit.
* `ORDER BY created_at DESC` is a stable insertion sort on the
  `createdAt` stamp, descending; `LIMIT n` is `List.take`.  Both the
  strictly advancing clock and the stable sort are determinizations the
  source does not make: `time.Now()` guarantees no distinctness of
  stamps across requests, and the query names no secondary sort key, so
  the order of rows with equal stamps is unspecified in the source.  No
  theorem below rests on either determinization for its content: where
  the clock convention matters (the history listing) the stated order
  properties are exactly those that hold for strictly increasing
  stamps, and the behaviour at equal stamps is left unjudged.
* Timestamp *formatting* (`Format("2006-01-02")` / `Format("15:04")`) is
  not modelled; a history entry carries the raw `createdAt` stamp from
  which both strings are derived.
-/

/-- The GORM `User` model (password hash omitted: never read by the core). -/
structure User where
  id : Nat
  email : String
  firstName : String
  lastName : String
  phone : String
  birthday : String
  memberID : String
  memberTier : String
  points : Int
  createdAt : Nat
deriving Repr, DecidableEq

/-- The GORM `Transaction` model (transfer-history record). -/
structure Transaction where
  id : Nat
  fromUserID : Nat
  toUserID : Nat
  amount : Int
  type : String
  status : String
  description : String
  createdAt : Nat
deriving Repr, DecidableEq

/-- The SQLite store plus the request clock. -/
structure DBState where
  users : List User
  transactions : List Transaction
  nextUserId : Nat
  nextTxId : Nat
  clock : Nat
deriving Repr, DecidableEq

/-- Empty database: no rows, autoincrement counters at 1. -/
def initState : DBState :=
  { users := [], transactions := [], nextUserId := 1, nextTxId := 1, clock := 0 }

/-- `db.Where("member_id = ?", mid).First(&user)`. -/
def findByMemberId (users : List User) (mid : String) : Option User :=
  users.find? (fun u => u.memberID == mid)

/-- `db.Where("email = ?", email).First(&user)`. -/
def findByEmail (users : List User) (email : String) : Option User :=
  users.find? (fun u => u.email == email)

/-- `db.First(&user, id)` — primary-key lookup. -/
def findById (users : List User) (uid : Nat) : Option User :=
  users.find? (fun u => u.id == uid)

/-- Effect of `UPDATE ... SET points = v WHERE id = uid` on one row. -/
def updRow (uid : Nat) (v : Int) (u : User) : User :=
  if u.id == uid then { u with points := v } else u

/-- `tx.Model(&u).Update("points", v)`: set the `points` column of the rows
whose primary key is `uid`. -/
def updatePointsById (users : List User) (uid : Nat) (v : Int) : List User :=
  users.map (updRow uid v)

/-- Request body of `POST /register` (`registerHandler`'s payload struct). -/
structure RegisterRequest where
  email : String
  password : String
  firstName : String
  lastName : String
  phone : String
  birthday : String
  memberID : String
deriving Repr, DecidableEq

inductive RegisterError
  | invalidRequest
  | emailTaken
  | memberIdTaken
deriving Repr, DecidableEq

/-- `registerHandler`: field presence check, email and member_id uniqueness
checks, then creation of the user with tier "Gold" and 15420 points. -/
def register (st : DBState) (req : RegisterRequest) :
    Except RegisterError (DBState × User) :=
  if req.email = "" ∨ req.password = "" ∨ req.memberID = "" then
    .error .invalidRequest
  else if (findByEmail st.users req.email).isSome then
    .error .emailTaken
  else if (findByMemberId st.users req.memberID).isSome then
    .error .memberIdTaken
  else
    let u : User :=
      { id := st.nextUserId
        email := req.email
        firstName := req.firstName
        lastName := req.lastName
        phone := req.phone
        birthday := req.birthday
        memberID := req.memberID
        memberTier := "Gold"
        points := 15420
        createdAt := st.clock }
    .ok ({ st with
            users := st.users ++ [u]
            nextUserId := st.nextUserId + 1
            clock := st.clock + 1 }, u)

inductive TransferError
  | unauthorized
  | invalidRequest
  | selfTransfer
  | insufficientFunds
  | recipientNotFound
deriving Repr, DecidableEq

/-- Success body of `POST /transfer` (the fields of the JSON response that
are not constant text). -/
structure TransferResponse where
  transactionId : Nat
  remainingPoints : Int
  transferredAmount : Int
  recipientMemberId : String
  recipientFirstName : String
  recipientLastName : String
deriving Repr, DecidableEq

/-- `transferHandler` behind `jwtMiddleware`: caller load, the four
precondition checks in source order, then debit / credit / record-append as
one committed unit. -/
def transfer (st : DBState) (callerId : Nat) (toMemberId : String)
    (amount : Int) : Except TransferError (DBState × TransferResponse) :=
  match findById st.users callerId with
  | none => .error .unauthorized
  | some fromUser =>
    if toMemberId = "" ∨ amount ≤ 0 then
      .error .invalidRequest
    else if toMemberId = fromUser.memberID then
      .error .selfTransfer
    else if fromUser.points < amount then
      .error .insufficientFunds
    else
      match findByMemberId st.users toMemberId with
      | none => .error .recipientNotFound
      | some toUser =>
        let users1 := updatePointsById st.users fromUser.id
          (fromUser.points - amount)
        let users2 := updatePointsById users1 toUser.id
          (toUser.points + amount)
        let txn : Transaction :=
          { id := st.nextTxId
            fromUserID := fromUser.id
            toUserID := toUser.id
            amount := amount
            type := "transfer"
            status := "completed"
            description :=
              "Transfer to " ++ toUser.firstName ++ " " ++ toUser.lastName
            createdAt := st.clock }
        .ok ({ st with
                users := users2
                transactions := st.transactions ++ [txn]
                nextTxId := st.nextTxId + 1
                clock := st.clock + 1 },
             { transactionId := txn.id
               remainingPoints := fromUser.points - amount
               transferredAmount := amount
               recipientMemberId := toUser.memberID
               recipientFirstName := toUser.firstName
               recipientLastName := toUser.lastName })

/-- The store state after a `POST /transfer` request: the committed state on
success, the untouched state on any handler error return. -/
def transferState (st : DBState) (callerId : Nat) (toMemberId : String)
    (amount : Int) : DBState :=
  match transfer st callerId toMemberId amount with
  | .ok (st', _) => st'
  | .error _ => st

/-- The store state after a `POST /register` request. -/
def registerState (st : DBState) (req : RegisterRequest) : DBState :=
  match register st req with
  | .ok (st', _) => st'
  | .error _ => st

inductive SearchError
  | missingMemberId
  | unauthorized
  | selfSearch
  | notFound
deriving Repr, DecidableEq

/-- Body of a successful `GET /search/user` response — only these four
fields ever leave `searchUserHandler`. -/
structure PublicProfile where
  memberID : String
  firstName : String
  lastName : String
  memberTier : String
deriving Repr, DecidableEq

/-- `searchUserHandler` behind `jwtMiddleware`: query-parameter presence
check, self-search rejection, member-id lookup, public projection. -/
def searchUser (st : DBState) (callerId : Nat) (memberId : String) :
    Except SearchError PublicProfile :=
  if memberId = "" then .error .missingMemberId
  else
    match findById st.users callerId with
    | none => .error .unauthorized
    | some currentUser =>
      if memberId = currentUser.memberID then .error .selfSearch
      else
        match findByMemberId st.users memberId with
        | none => .error .notFound
        | some u =>
          .ok { memberID := u.memberID
                firstName := u.firstName
                lastName := u.lastName
                memberTier := u.memberTier }

/-- One element of the `transactions` array of
`GET /transactions/recent` (the raw `createdAt` stamp stands for the
formatted `date`/`time` pair derived from it). -/
structure HistoryEntry where
  id : Nat
  contactName : String
  contactMemberId : String
  amount : Int
  type : String
  status : String
  createdAt : Nat
deriving Repr, DecidableEq

/-- The zero `User` value GORM leaves in a preloaded association whose row
is absent. -/
def zeroUser : User :=
  { id := 0, email := "", firstName := "", lastName := "", phone := ""
    birthday := "", memberID := "", memberTier := "", points := 0
    createdAt := 0 }

/-- `WHERE from_user_id = ? OR to_user_id = ?` for the current user. -/
def touches (uid : Nat) (t : Transaction) : Bool :=
  t.fromUserID == uid || t.toUserID == uid

/-- The per-record formatting loop of `recentTransactionsHandler`: signed
amount, direction tag, counterparty summary via the preloaded association. -/
def formatEntry (users : List User) (uid : Nat) (t : Transaction) :
    HistoryEntry :=
  if t.fromUserID == uid then
    let toUser := (findById users t.toUserID).getD zeroUser
    { id := t.id
      contactName := toUser.firstName ++ " " ++ toUser.lastName
      contactMemberId := toUser.memberID
      amount := -t.amount
      type := "sent"
      status := t.status
      createdAt := t.createdAt }
  else
    let fromUser := (findById users t.fromUserID).getD zeroUser
    { id := t.id
      contactName := fromUser.firstName ++ " " ++ fromUser.lastName
      contactMemberId := fromUser.memberID
      amount := t.amount
      type := "received"
      status := t.status
      createdAt := t.createdAt }

/-- Stable descending insertion by `createdAt` (`ORDER BY created_at DESC`;
rows with equal stamps keep their relative table order). -/
def insertDescByCreated (t : Transaction) :
    List Transaction → List Transaction
  | [] => [t]
  | x :: xs =>
    if t.createdAt ≤ x.createdAt then x :: insertDescByCreated t xs
    else t :: x :: xs

/-- `ORDER BY created_at DESC` as a stable sort. -/
def sortDescByCreated : List Transaction → List Transaction
  | [] => []
  | x :: xs => insertDescByCreated x (sortDescByCreated xs)

/-- The History Reader (`recentTransactionsHandler`'s query and formatting
loop), with the row cap as a parameter. -/
def recentFor (st : DBState) (uid : Nat) (limit : Nat) : List HistoryEntry :=
  ((sortDescByCreated (st.transactions.filter (touches uid))).take
    limit).map (formatEntry st.users uid)

/-- `GET /transactions/recent`: the History Reader at the source's
hard-coded `Limit(10)`. -/
def recentTransactions (st : DBState) (uid : Nat) : List HistoryEntry :=
  recentFor st uid 10

/-- Well-formedness of a store state: unique ids and member ids, non-empty
member ids, non-negative balances, counters above every used id, the
ledger append-ordered with strictly increasing ids and stamps, every
record well-shaped ("transfer"/"completed", positive amount, distinct
existing endpoints). -/
def WF (st : DBState) : Prop :=
  st.users.Pairwise (fun a b => a.id ≠ b.id) ∧
  st.users.Pairwise (fun a b => a.memberID ≠ b.memberID) ∧
  (∀ u ∈ st.users, u.memberID ≠ "") ∧
  (∀ u ∈ st.users, 0 ≤ u.points) ∧
  (∀ u ∈ st.users, u.id < st.nextUserId) ∧
  (∀ t ∈ st.transactions, t.id < st.nextTxId) ∧
  (∀ t ∈ st.transactions, t.createdAt < st.clock) ∧
  st.transactions.Pairwise
    (fun a b => a.id < b.id ∧ a.createdAt < b.createdAt) ∧
  (∀ t ∈ st.transactions,
    0 < t.amount ∧ t.type = "transfer" ∧ t.status = "completed" ∧
    t.fromUserID ≠ t.toUserID ∧
    (∃ u ∈ st.users, u.id = t.fromUserID) ∧
    (∃ v ∈ st.users, v.id = t.toUserID))

/-- One state-changing request against the store (reads leave the state
unchanged, and so do handler error returns: the `…State` wrappers). -/
inductive Step : DBState → DBState → Prop
  | register (st : DBState) (req : RegisterRequest) :
      Step st (registerState st req)
  | transfer (st : DBState) (callerId : Nat) (toMemberId : String)
      (amount : Int) :
      Step st (transferState st callerId toMemberId amount)

/-- States reachable from the empty database by the core operations. -/
inductive Reachable : DBState → Prop
  | init : Reachable initState
  | step {st st' : DBState} : Reachable st → Step st st' → Reachable st'

instance (st : DBState) : Decidable (WF st) := by
  unfold WF; infer_instance

/-! ### Lookup and update lemmas -/

theorem updRow_id (uid : Nat) (v : Int) (u : User) :
    (updRow uid v u).id = u.id := by
  unfold updRow; split <;> rfl

theorem updRow_memberID (uid : Nat) (v : Int) (u : User) :
    (updRow uid v u).memberID = u.memberID := by
  unfold updRow; split <;> rfl

theorem updRow_of_ne (uid : Nat) (v : Int) (u : User) (h : u.id ≠ uid) :
    updRow uid v u = u := by
  unfold updRow
  simp [h]

theorem updRow_of_eq (uid : Nat) (v : Int) (u : User) (h : u.id = uid) :
    updRow uid v u = { u with points := v } := by
  unfold updRow
  simp [h]

theorem mem_of_findByMemberId {users : List User} {mid : String} {u : User}
    (h : findByMemberId users mid = some u) : u ∈ users :=
  List.mem_of_find?_eq_some h

theorem memberID_of_findByMemberId {users : List User} {mid : String}
    {u : User} (h : findByMemberId users mid = some u) : u.memberID = mid := by
  have := List.find?_some h
  simpa using this

theorem findByMemberId_eq_none {users : List User} {mid : String}
    (h : findByMemberId users mid = none) : ∀ u ∈ users, u.memberID ≠ mid := by
  intro u hu
  have := List.find?_eq_none.1 h u hu
  simpa using this

theorem mem_of_findById {users : List User} {uid : Nat} {u : User}
    (h : findById users uid = some u) : u ∈ users :=
  List.mem_of_find?_eq_some h

theorem id_of_findById {users : List User} {uid : Nat} {u : User}
    (h : findById users uid = some u) : u.id = uid := by
  have := List.find?_some h
  simpa using this

/-- With pairwise-distinct ids, primary-key lookup finds each member row. -/
theorem findById_eq_some_of_mem {users : List User}
    (huniq : users.Pairwise (fun a b => a.id ≠ b.id)) {u : User}
    (hu : u ∈ users) : findById users u.id = some u := by
  induction users with
  | nil => cases hu
  | cons x xs ih =>
    rcases List.mem_cons.1 hu with rfl | hmem
    · simp [findById, List.find?_cons]
    · have hx : x.id ≠ u.id := (List.pairwise_cons.1 huniq).1 u hmem
      have : (x.id == u.id) = false := by
        simpa using hx
      simp only [findById, List.find?_cons, this]
      exact ih (List.pairwise_cons.1 huniq).2 hmem

/-- Rows with pairwise-distinct ids and a shared id coincide. -/
theorem eq_of_mem_of_id_eq {users : List User}
    (huniq : users.Pairwise (fun a b => a.id ≠ b.id)) {u v : User}
    (hu : u ∈ users) (hv : v ∈ users) (h : u.id = v.id) : u = v := by
  induction users with
  | nil => cases hu
  | cons x xs ih =>
    have hhead := (List.pairwise_cons.1 huniq).1
    rcases List.mem_cons.1 hu with rfl | hu' <;>
      rcases List.mem_cons.1 hv with rfl | hv'
    · rfl
    · exact absurd h (hhead v hv')
    · exact absurd h.symm (hhead u hu')
    · exact ih (List.pairwise_cons.1 huniq).2 hu' hv'

/-- A `points` UPDATE rewrites each row pointwise. -/
theorem findById_updatePointsById (users : List User) (uid : Nat) (v : Int)
    (x : Nat) :
    findById (updatePointsById users uid v) x =
      (findById users x).map (updRow uid v) := by
  induction users with
  | nil => rfl
  | cons h t ih =>
    simp only [updatePointsById, List.map_cons, findById, List.find?_cons]
      at ih ⊢
    have hid : ((updRow uid v h).id == x) = (h.id == x) := by
      rw [updRow_id]
    rw [hid]
    cases hb : (h.id == x) with
    | true => simp
    | false => simpa using ih

theorem mem_updatePointsById {users : List User} {uid : Nat} {v : Int}
    {w : User} (h : w ∈ updatePointsById users uid v) :
    ∃ u ∈ users, w = updRow uid v u := by
  rcases List.mem_map.1 h with ⟨u, hu, rfl⟩
  exact ⟨u, hu, rfl⟩

theorem updRow_mem_updatePointsById {users : List User} {u : User}
    (hu : u ∈ users) (uid : Nat) (v : Int) :
    updRow uid v u ∈ updatePointsById users uid v :=
  List.mem_map_of_mem _ hu

theorem pairwise_id_updatePointsById {users : List User}
    (h : users.Pairwise (fun a b => a.id ≠ b.id)) (uid : Nat) (v : Int) :
    (updatePointsById users uid v).Pairwise (fun a b => a.id ≠ b.id) :=
  h.map _ (by
    intro a b hab
    rw [updRow_id, updRow_id]
    exact hab)

theorem pairwise_memberID_updatePointsById {users : List User}
    (h : users.Pairwise (fun a b => a.memberID ≠ b.memberID)) (uid : Nat)
    (v : Int) :
    (updatePointsById users uid v).Pairwise
      (fun a b => a.memberID ≠ b.memberID) :=
  h.map _ (by
    intro a b hab
    rw [updRow_memberID, updRow_memberID]
    exact hab)

theorem updatePointsById_of_not_mem {users : List User} {uid : Nat} {v : Int}
    (h : ∀ u ∈ users, u.id ≠ uid) : updatePointsById users uid v = users := by
  induction users with
  | nil => rfl
  | cons x xs ih =>
    simp only [updatePointsById, List.map_cons] at ih ⊢
    rw [updRow_of_ne uid v x (h x (List.mem_cons_self x xs)),
      ih (fun u hu => h u (List.mem_cons_of_mem x hu))]

/-- Total of the `points` column. -/
def totalPoints (users : List User) : Int :=
  (users.map (·.points)).sum

/-- Effect of one `points` UPDATE on the column total, under unique ids. -/
theorem totalPoints_updatePointsById {users : List User}
    (huniq : users.Pairwise (fun a b => a.id ≠ b.id)) {u : User}
    (hu : u ∈ users) (v : Int) :
    totalPoints (updatePointsById users u.id v) =
      totalPoints users - u.points + v := by
  induction users with
  | nil => cases hu
  | cons x xs ih =>
    have hhead := (List.pairwise_cons.1 huniq).1
    have htail := (List.pairwise_cons.1 huniq).2
    rcases List.mem_cons.1 hu with rfl | hu'
    · have hxs : updatePointsById xs u.id v = xs :=
        updatePointsById_of_not_mem (fun w hw => (hhead w hw).symm)
      simp only [updatePointsById, List.map_cons, totalPoints] at hxs ⊢
      rw [updRow_of_eq u.id v u rfl]
      simp only [List.map_cons, List.sum_cons]
      rw [show (updRow u.id v) = fun w => updRow u.id v w from rfl] at hxs
      rw [hxs]
      ring
    · have hx : updRow u.id v x = x :=
        updRow_of_ne u.id v x (hhead u hu')
      simp only [updatePointsById, List.map_cons, totalPoints] at ih ⊢
      rw [hx]
      simp only [List.map_cons, List.sum_cons]
      rw [ih htail hu']
      ring

/-! ### Sort lemmas for the history query -/

theorem insertDescByCreated_of_all_le (t : Transaction)
    (l : List Transaction) (h : ∀ x ∈ l, t.createdAt ≤ x.createdAt) :
    insertDescByCreated t l = l ++ [t] := by
  induction l with
  | nil => rfl
  | cons x xs ih =>
    rw [insertDescByCreated,
      if_pos (h x (List.mem_cons_self x xs)),
      ih (fun y hy => h y (List.mem_cons_of_mem x hy))]
    rfl

/-- On a ledger slice with strictly increasing stamps,
`ORDER BY created_at DESC` is exactly reversal of insertion order. -/
theorem sortDescByCreated_of_sorted (l : List Transaction)
    (h : l.Pairwise (fun a b => a.createdAt < b.createdAt)) :
    sortDescByCreated l = l.reverse := by
  induction l with
  | nil => rfl
  | cons x xs ih =>
    have hhead := (List.pairwise_cons.1 h).1
    rw [sortDescByCreated, ih (List.pairwise_cons.1 h).2,
      insertDescByCreated_of_all_le]
    · rw [List.reverse_cons]
    · intro y hy
      exact le_of_lt (hhead y (List.mem_reverse.1 hy))

theorem formatEntry_id (users : List User) (uid : Nat) (t : Transaction) :
    (formatEntry users uid t).id = t.id := by
  unfold formatEntry; split <;> rfl

theorem formatEntry_createdAt (users : List User) (uid : Nat)
    (t : Transaction) : (formatEntry users uid t).createdAt = t.createdAt := by
  unfold formatEntry; split <;> rfl

/-! ### Success/failure characterization of the transfer handler -/

theorem transfer_ok_elim {st : DBState} {callerId : Nat} {toMemberId : String}
    {amount : Int} {st' : DBState} {resp : TransferResponse}
    (h : transfer st callerId toMemberId amount = .ok (st', resp)) :
    ∃ fromUser toUser,
      findById st.users callerId = some fromUser ∧
      findByMemberId st.users toMemberId = some toUser ∧
      toMemberId ≠ "" ∧ 0 < amount ∧
      toMemberId ≠ fromUser.memberID ∧
      amount ≤ fromUser.points ∧
      st' = { st with
              users := updatePointsById
                (updatePointsById st.users fromUser.id
                  (fromUser.points - amount))
                toUser.id (toUser.points + amount)
              transactions := st.transactions ++
                [{ id := st.nextTxId
                   fromUserID := fromUser.id
                   toUserID := toUser.id
                   amount := amount
                   type := "transfer"
                   status := "completed"
                   description := "Transfer to " ++ toUser.firstName ++ " "
                     ++ toUser.lastName
                   createdAt := st.clock }]
              nextTxId := st.nextTxId + 1
              clock := st.clock + 1 } ∧
      resp = { transactionId := st.nextTxId
               remainingPoints := fromUser.points - amount
               transferredAmount := amount
               recipientMemberId := toUser.memberID
               recipientFirstName := toUser.firstName
               recipientLastName := toUser.lastName } := by
  unfold transfer at h
  cases hf : findById st.users callerId with
  | none => rw [hf] at h; cases h
  | some fromUser =>
    rw [hf] at h
    dsimp only at h
    by_cases h1 : toMemberId = "" ∨ amount ≤ 0
    · rw [if_pos h1] at h; cases h
    · rw [if_neg h1] at h
      by_cases h2 : toMemberId = fromUser.memberID
      · rw [if_pos h2] at h; cases h
      · rw [if_neg h2] at h
        by_cases h3 : fromUser.points < amount
        · rw [if_pos h3] at h; cases h
        · rw [if_neg h3] at h
          cases ht : findByMemberId st.users toMemberId with
          | none => rw [ht] at h; cases h
          | some toUser =>
            rw [ht] at h
            refine ⟨fromUser, toUser, rfl, rfl, ?_, ?_, h2, not_lt.1 h3,
              ?_, ?_⟩
            · intro he; exact h1 (Or.inl he)
            · exact lt_of_not_le (fun hle => h1 (Or.inr hle))
            · exact (Prod.mk.injEq _ _ _ _ ▸ Except.ok.inj h).1.symm
            · exact (Prod.mk.injEq _ _ _ _ ▸ Except.ok.inj h).2.symm

theorem transfer_ok_intro {st : DBState} {callerId : Nat}
    {toMemberId : String} {amount : Int} {fromUser toUser : User}
    (hf : findById st.users callerId = some fromUser)
    (ht : findByMemberId st.users toMemberId = some toUser)
    (hne : toMemberId ≠ "") (hpos : 0 < amount)
    (hself : toMemberId ≠ fromUser.memberID)
    (hfunds : amount ≤ fromUser.points) :
    transfer st callerId toMemberId amount = .ok
      ({ st with
         users := updatePointsById
           (updatePointsById st.users fromUser.id (fromUser.points - amount))
           toUser.id (toUser.points + amount)
         transactions := st.transactions ++
           [{ id := st.nextTxId
              fromUserID := fromUser.id
              toUserID := toUser.id
              amount := amount
              type := "transfer"
              status := "completed"
              description := "Transfer to " ++ toUser.firstName ++ " "
                ++ toUser.lastName
              createdAt := st.clock }]
         nextTxId := st.nextTxId + 1
         clock := st.clock + 1 },
       { transactionId := st.nextTxId
         remainingPoints := fromUser.points - amount
         transferredAmount := amount
         recipientMemberId := toUser.memberID
         recipientFirstName := toUser.firstName
         recipientLastName := toUser.lastName }) := by
  unfold transfer
  rw [hf]
  dsimp only
  rw [if_neg (by
      rintro (he | hle)
      · exact hne he
      · exact absurd hpos (not_lt.2 hle)),
    if_neg hself, if_neg (not_lt.2 hfunds), ht]

theorem transferState_of_error {st : DBState} {callerId : Nat}
    {toMemberId : String} {amount : Int} {e : TransferError}
    (h : transfer st callerId toMemberId amount = .error e) :
    transferState st callerId toMemberId amount = st := by
  unfold transferState
  rw [h]

theorem points_nonneg_updatePointsById {l : List User} {uid : Nat} {v : Int}
    (hl : ∀ u ∈ l, 0 ≤ u.points) (hv : 0 ≤ v) :
    ∀ w ∈ updatePointsById l uid v, 0 ≤ w.points := by
  intro w hw
  obtain ⟨u, hu, rfl⟩ := mem_updatePointsById hw
  unfold updRow
  split
  · exact hv
  · exact hl u hu

/-! ### Success characterization of registration -/

theorem register_ok_elim {st : DBState} {req : RegisterRequest}
    {st' : DBState} {u : User} (h : register st req = .ok (st', u)) :
    req.email ≠ "" ∧ req.password ≠ "" ∧ req.memberID ≠ "" ∧
    findByEmail st.users req.email = none ∧
    findByMemberId st.users req.memberID = none ∧
    u = { id := st.nextUserId
          email := req.email
          firstName := req.firstName
          lastName := req.lastName
          phone := req.phone
          birthday := req.birthday
          memberID := req.memberID
          memberTier := "Gold"
          points := 15420
          createdAt := st.clock } ∧
    st' = { st with
            users := st.users ++ [u]
            nextUserId := st.nextUserId + 1
            clock := st.clock + 1 } := by
  unfold register at h
  by_cases h1 : req.email = "" ∨ req.password = "" ∨ req.memberID = ""
  · rw [if_pos h1] at h; cases h
  · rw [if_neg h1] at h
    push_neg at h1
    cases he : findByEmail st.users req.email with
    | some w => rw [he] at h; simp only [Option.isSome_some, if_true] at h
                cases h
    | none =>
      rw [he] at h
      simp only [Option.isSome_none, Bool.false_eq_true, if_false] at h
      cases hm : findByMemberId st.users req.memberID with
      | some w => rw [hm] at h
                  simp only [Option.isSome_some, if_true] at h
                  cases h
      | none =>
        rw [hm] at h
        simp only [Option.isSome_none, Bool.false_eq_true, if_false] at h
        obtain ⟨hst, hu⟩ := Prod.mk.injEq _ _ _ _ ▸ Except.ok.inj h
        exact ⟨h1.1, h1.2.1, h1.2.2, rfl, rfl, hu.symm, by
          rw [← hst, ← hu]⟩

theorem registerState_of_error {st : DBState} {req : RegisterRequest}
    {e : RegisterError} (h : register st req = .error e) :
    registerState st req = st := by
  unfold registerState
  rw [h]

/-! ### Preservation of well-formedness -/

theorem wf_register {st : DBState} {req : RegisterRequest} {st' : DBState}
    {u : User} (hwf : WF st) (h : register st req = .ok (st', u)) : WF st' := by
  obtain ⟨-, -, hmid_ne, -, hmid_none, hu, hst'⟩ := register_ok_elim h
  obtain ⟨hid, hmid, hmne, hpts, hult, htlt, hclt, hpw, hshape⟩ := hwf
  have hfresh : ∀ a ∈ st.users, a.id ≠ st.nextUserId :=
    fun a ha => Nat.ne_of_lt (hult a ha)
  have hmfresh : ∀ a ∈ st.users, a.memberID ≠ req.memberID :=
    findByMemberId_eq_none hmid_none
  subst hst' hu
  refine ⟨?_, ?_, ?_, ?_, ?_, ?_, ?_, ?_, ?_⟩
  · exact List.pairwise_append.2 ⟨hid, List.pairwise_singleton _ _,
      fun a ha b hb => by
        rw [List.mem_singleton.1 hb]
        exact hfresh a ha⟩
  · exact List.pairwise_append.2 ⟨hmid, List.pairwise_singleton _ _,
      fun a ha b hb => by
        rw [List.mem_singleton.1 hb]
        exact hmfresh a ha⟩
  · intro w hw
    rcases List.mem_append.1 hw with hw | hw
    · exact hmne w hw
    · rw [List.mem_singleton.1 hw]
      exact hmid_ne
  · intro w hw
    rcases List.mem_append.1 hw with hw | hw
    · exact hpts w hw
    · rw [List.mem_singleton.1 hw]
      norm_num
  · intro w hw
    rcases List.mem_append.1 hw with hw | hw
    · exact Nat.lt_trans (hult w hw) (Nat.lt_succ_self _)
    · rw [List.mem_singleton.1 hw]
      exact Nat.lt_succ_self _
  · exact htlt
  · intro t ht
    exact Nat.lt_trans (hclt t ht) (Nat.lt_succ_self _)
  · exact hpw
  · intro t ht
    obtain ⟨hamt, hty, hstat, hneq, ⟨a, ha, haid⟩, ⟨b, hb, hbid⟩⟩ :=
      hshape t ht
    exact ⟨hamt, hty, hstat, hneq,
      ⟨a, List.mem_append_left _ ha, haid⟩,
      ⟨b, List.mem_append_left _ hb, hbid⟩⟩

theorem wf_transfer {st : DBState} {callerId : Nat} {toMemberId : String}
    {amount : Int} {st' : DBState} {resp : TransferResponse} (hwf : WF st)
    (h : transfer st callerId toMemberId amount = .ok (st', resp)) :
    WF st' := by
  obtain ⟨A, B, hA, hB, -, hpos, hself, hfunds, hst', -⟩ := transfer_ok_elim h
  obtain ⟨hid, hmid, hmne, hpts, hult, htlt, hclt, hpw, hshape⟩ := hwf
  have hAmem := mem_of_findById hA
  have hBmem := mem_of_findByMemberId hB
  have hBmid := memberID_of_findByMemberId hB
  have hABne : A.id ≠ B.id := by
    intro hEq
    have hABeq : A = B := eq_of_mem_of_id_eq hid hAmem hBmem hEq
    rw [hABeq, hBmid] at hself
    exact hself rfl
  subst hst'
  have hmemEnd : ∀ w ∈ st.users,
      ∃ z ∈ updatePointsById
        (updatePointsById st.users A.id (A.points - amount)) B.id
        (B.points + amount), z.id = w.id := by
    intro w hw
    refine ⟨updRow B.id (B.points + amount)
      (updRow A.id (A.points - amount) w),
      updRow_mem_updatePointsById
        (updRow_mem_updatePointsById hw A.id (A.points - amount)) B.id
        (B.points + amount), ?_⟩
    rw [updRow_id, updRow_id]
  refine ⟨?_, ?_, ?_, ?_, ?_, ?_, ?_, ?_, ?_⟩
  · exact pairwise_id_updatePointsById
      (pairwise_id_updatePointsById hid A.id (A.points - amount)) B.id
      (B.points + amount)
  · exact pairwise_memberID_updatePointsById
      (pairwise_memberID_updatePointsById hmid A.id (A.points - amount))
      B.id (B.points + amount)
  · intro w hw
    obtain ⟨w1, hw1, rfl⟩ := mem_updatePointsById hw
    obtain ⟨u, hu, rfl⟩ := mem_updatePointsById hw1
    rw [updRow_memberID, updRow_memberID]
    exact hmne u hu
  · exact points_nonneg_updatePointsById
      (points_nonneg_updatePointsById hpts (sub_nonneg.mpr hfunds))
      (add_nonneg (hpts B hBmem) (le_of_lt hpos))
  · intro w hw
    obtain ⟨w1, hw1, rfl⟩ := mem_updatePointsById hw
    obtain ⟨u, hu, rfl⟩ := mem_updatePointsById hw1
    rw [updRow_id, updRow_id]
    exact hult u hu
  · intro t ht
    rcases List.mem_append.1 ht with ht | ht
    · exact Nat.lt_trans (htlt t ht) (Nat.lt_succ_self _)
    · rw [List.mem_singleton.1 ht]
      exact Nat.lt_succ_self _
  · intro t ht
    rcases List.mem_append.1 ht with ht | ht
    · exact Nat.lt_trans (hclt t ht) (Nat.lt_succ_self _)
    · rw [List.mem_singleton.1 ht]
      exact Nat.lt_succ_self _
  · refine List.pairwise_append.2 ⟨hpw, List.pairwise_singleton _ _, ?_⟩
    intro a ha b hb
    rw [List.mem_singleton.1 hb]
    exact ⟨htlt a ha, hclt a ha⟩
  · intro t ht
    rcases List.mem_append.1 ht with ht | ht
    · obtain ⟨hamt, hty, hstat, hneq, ⟨a, ha, haid⟩, ⟨b, hb, hbid⟩⟩ :=
        hshape t ht
      obtain ⟨za, hza, hzaid⟩ := hmemEnd a ha
      obtain ⟨zb, hzb, hzbid⟩ := hmemEnd b hb
      exact ⟨hamt, hty, hstat, hneq, ⟨za, hza, by rw [hzaid, haid]⟩,
        ⟨zb, hzb, by rw [hzbid, hbid]⟩⟩
    · rw [List.mem_singleton.1 ht]
      obtain ⟨za, hza, hzaid⟩ := hmemEnd A hAmem
      obtain ⟨zb, hzb, hzbid⟩ := hmemEnd B hBmem
      exact ⟨hpos, rfl, rfl, hABne, ⟨za, hza, hzaid⟩, ⟨zb, hzb, hzbid⟩⟩

theorem wf_registerState (st : DBState) (req : RegisterRequest)
    (hwf : WF st) : WF (registerState st req) := by
  unfold registerState
  cases h : register st req with
  | ok p =>
    obtain ⟨st', u⟩ := p
    exact wf_register hwf h
  | error e => exact hwf

theorem wf_transferState (st : DBState) (callerId : Nat)
    (toMemberId : String) (amount : Int) (hwf : WF st) :
    WF (transferState st callerId toMemberId amount) := by
  unfold transferState
  cases h : transfer st callerId toMemberId amount with
  | ok p =>
    obtain ⟨st', resp⟩ := p
    exact wf_transfer hwf h
  | error e => exact hwf

theorem wf_initState : WF initState := by decide

theorem wf_step {st st' : DBState} (h : Step st st') (hwf : WF st) :
    WF st' := by
  cases h with
  | register req => exact wf_registerState st req hwf
  | transfer callerId toMemberId amount =>
    exact wf_transferState st callerId toMemberId amount hwf

/-- Every reachable store state is well-formed. -/
theorem wf_reachable {st : DBState} (h : Reachable st) : WF st := by
  induction h with
  | init => exact wf_initState
  | step _ hstep ih => exact wf_step hstep ih

/-! ### Further lookup lemmas -/

theorem eq_of_mem_of_memberID_eq {users : List User}
    (huniq : users.Pairwise (fun a b => a.memberID ≠ b.memberID))
    {u v : User} (hu : u ∈ users) (hv : v ∈ users)
    (h : u.memberID = v.memberID) : u = v := by
  induction users with
  | nil => cases hu
  | cons x xs ih =>
    have hhead := (List.pairwise_cons.1 huniq).1
    rcases List.mem_cons.1 hu with rfl | hu' <;>
      rcases List.mem_cons.1 hv with rfl | hv'
    · rfl
    · exact absurd h (hhead v hv')
    · exact absurd h.symm (hhead u hu')
    · exact ih (List.pairwise_cons.1 huniq).2 hu' hv'

theorem findByMemberId_eq_some_of_mem {users : List User}
    (huniq : users.Pairwise (fun a b => a.memberID ≠ b.memberID)) {u : User}
    (hu : u ∈ users) : findByMemberId users u.memberID = some u := by
  induction users with
  | nil => cases hu
  | cons x xs ih =>
    rcases List.mem_cons.1 hu with rfl | hmem
    · simp [findByMemberId, List.find?_cons]
    · have hx : x.memberID ≠ u.memberID :=
        (List.pairwise_cons.1 huniq).1 u hmem
      have : (x.memberID == u.memberID) = false := by
        simpa using hx
      simp only [findByMemberId, List.find?_cons, this]
      exact ih (List.pairwise_cons.1 huniq).2 hmem

/-- Sender and recipient of a passing transfer are different rows. -/
theorem transfer_endpoints_ne {st : DBState} {callerId : Nat}
    {toMemberId : String} {A B : User}
    (hid : st.users.Pairwise (fun a b => a.id ≠ b.id))
    (hA : findById st.users callerId = some A)
    (hB : findByMemberId st.users toMemberId = some B)
    (hself : toMemberId ≠ A.memberID) : A.id ≠ B.id := by
  intro hEq
  have hABeq : A = B :=
    eq_of_mem_of_id_eq hid (mem_of_findById hA) (mem_of_findByMemberId hB)
      hEq
  rw [hABeq, memberID_of_findByMemberId hB] at hself
  exact hself rfl

theorem formatEntry_sent {users : List User} {uid : Nat} {t : Transaction}
    (h : t.fromUserID = uid) {v : User}
    (hv : findById users t.toUserID = some v) :
    formatEntry users uid t =
      { id := t.id
        contactName := v.firstName ++ " " ++ v.lastName
        contactMemberId := v.memberID
        amount := -t.amount
        type := "sent"
        status := t.status
        createdAt := t.createdAt } := by
  unfold formatEntry
  rw [if_pos (by simpa using h), hv]
  rfl

theorem formatEntry_received {users : List User} {uid : Nat}
    {t : Transaction} (h : t.fromUserID ≠ uid) {v : User}
    (hv : findById users t.fromUserID = some v) :
    formatEntry users uid t =
      { id := t.id
        contactName := v.firstName ++ " " ++ v.lastName
        contactMemberId := v.memberID
        amount := t.amount
        type := "received"
        status := t.status
        createdAt := t.createdAt } := by
  unfold formatEntry
  rw [if_neg (by simpa using h), hv]
  rfl

/-! ### Concrete states used as witnesses -/

/-- Registration request of the README's first example member. -/
def reqS : RegisterRequest :=
  { email := "test@example.com", password := "password123"
    firstName := "Somchai", lastName := "Jaidee", phone := "081-234-5678"
    birthday := "1990-01-01", memberID := "LBK001234" }

/-- Registration request of the README's second example member. -/
def reqR : RegisterRequest :=
  { email := "test2@example.com", password := "password123"
    firstName := "Naang", lastName := "Suayngam", phone := "081-234-5679"
    birthday := "1992-05-15", memberID := "LBK002345" }

/-- Store holding the two example members, freshly registered. -/
def twoUserState : DBState :=
  registerState (registerState initState reqS) reqR

/-- Row of the first member inside `twoUserState`. -/
def userS : User :=
  { id := 1, email := "test@example.com", firstName := "Somchai"
    lastName := "Jaidee", phone := "081-234-5678", birthday := "1990-01-01"
    memberID := "LBK001234", memberTier := "Gold", points := 15420
    createdAt := 0 }

/-- Row of the second member inside `twoUserState`. -/
def userR : User :=
  { id := 2, email := "test2@example.com", firstName := "Naang"
    lastName := "Suayngam", phone := "081-234-5679"
    birthday := "1992-05-15", memberID := "LBK002345"
    memberTier := "Gold", points := 15420, createdAt := 1 }

/-- Store after the spec's concrete 1000-point transfer scenario. -/
def afterTransferState : DBState :=
  transferState twoUserState 1 "LBK002345" 1000

/-- `twoUserState` is reachable by two registrations. -/
theorem reachable_twoUserState : Reachable twoUserState :=
  Reachable.step
    (Reachable.step Reachable.init (Step.register initState reqS))
    (Step.register (registerState initState reqS) reqR)

theorem formatEntry_status (users : List User) (uid : Nat)
    (t : Transaction) : (formatEntry users uid t).status = t.status := by
  unfold formatEntry; split <;> rfl

theorem findById_debit_credit_sender (users : List User) (A : User)
    (bid : Nat) (v1 v2 : Int) (hA : findById users A.id = some A)
    (hne : A.id ≠ bid) :
    findById (updatePointsById (updatePointsById users A.id v1) bid v2)
      A.id = some { A with points := v1 } := by
  rw [findById_updatePointsById, findById_updatePointsById, hA]
  simp only [Option.map_some']
  rw [updRow_of_eq A.id v1 A rfl,
    updRow_of_ne bid v2 { A with points := v1 } hne]

theorem findById_debit_credit_recipient (users : List User) (B : User)
    (aid : Nat) (v1 v2 : Int) (hB : findById users B.id = some B)
    (hne : B.id ≠ aid) :
    findById (updatePointsById (updatePointsById users aid v1) B.id v2)
      B.id = some { B with points := v2 } := by
  rw [findById_updatePointsById, findById_updatePointsById, hB]
  simp only [Option.map_some']
  rw [updRow_of_ne aid v1 B hne, updRow_of_eq B.id v2 B rfl]

/-! ## Claim theorems -/

/-- **C2**: `transferHandler` checks its preconditions in source order —
(1) non-empty `to_member_id` and positive amount, else invalid request;
(2) recipient equal to the caller's own member id, yielding the
self-transfer error; (3) balance below the amount, yielding insufficient
funds; (4) failing recipient lookup, yielding recipient-not-found — each
earlier check masking the later ones, every error return leaving the
store untouched, and the four failure kinds pairwise distinct. -/
theorem transfer_precondition_order (st : DBState) (callerId : Nat)
    (toMemberId : String) (amount : Int) (fromUser : User)
    (hc : findById st.users callerId = some fromUser) :
    ((toMemberId = "" ∨ amount ≤ 0) →
      transfer st callerId toMemberId amount =
        .error TransferError.invalidRequest) ∧
    (¬(toMemberId = "" ∨ amount ≤ 0) → toMemberId = fromUser.memberID →
      transfer st callerId toMemberId amount =
        .error TransferError.selfTransfer) ∧
    (¬(toMemberId = "" ∨ amount ≤ 0) → toMemberId ≠ fromUser.memberID →
      fromUser.points < amount →
      transfer st callerId toMemberId amount =
        .error TransferError.insufficientFunds) ∧
    (¬(toMemberId = "" ∨ amount ≤ 0) → toMemberId ≠ fromUser.memberID →
      ¬fromUser.points < amount →
      findByMemberId st.users toMemberId = none →
      transfer st callerId toMemberId amount =
        .error TransferError.recipientNotFound) ∧
    (∀ e, transfer st callerId toMemberId amount = .error e →
      transferState st callerId toMemberId amount = st) ∧
    [TransferError.invalidRequest, TransferError.selfTransfer,
      TransferError.insufficientFunds,
      TransferError.recipientNotFound].Pairwise (· ≠ ·) := by
  refine ⟨?_, ?_, ?_, ?_, fun e he => transferState_of_error he, by decide⟩
  · intro h1
    unfold transfer
    rw [hc]
    dsimp only
    rw [if_pos h1]
  · intro h1 h2
    unfold transfer
    rw [hc]
    dsimp only
    rw [if_neg h1, if_pos h2]
  · intro h1 h2 h3
    unfold transfer
    rw [hc]
    dsimp only
    rw [if_neg h1, if_neg h2, if_pos h3]
  · intro h1 h2 h3 h4
    unfold transfer
    rw [hc]
    dsimp only
    rw [if_neg h1, if_neg h2, if_neg h3, h4]

/-- Witness for `transfer_precondition_order` at the two-member store,
recipient "LBK002345", amount 5. -/
theorem transfer_precondition_order_witness :
    findById twoUserState.users 1 = some userS ∧
    (((("LBK002345" : String) = "" ∨ (5 : Int) ≤ 0) →
      transfer twoUserState 1 "LBK002345" 5 =
        .error TransferError.invalidRequest) ∧
    (¬(("LBK002345" : String) = "" ∨ (5 : Int) ≤ 0) →
      ("LBK002345" : String) = userS.memberID →
      transfer twoUserState 1 "LBK002345" 5 =
        .error TransferError.selfTransfer) ∧
    (¬(("LBK002345" : String) = "" ∨ (5 : Int) ≤ 0) →
      ("LBK002345" : String) ≠ userS.memberID →
      userS.points < 5 →
      transfer twoUserState 1 "LBK002345" 5 =
        .error TransferError.insufficientFunds) ∧
    (¬(("LBK002345" : String) = "" ∨ (5 : Int) ≤ 0) →
      ("LBK002345" : String) ≠ userS.memberID →
      ¬userS.points < 5 →
      findByMemberId twoUserState.users "LBK002345" = none →
      transfer twoUserState 1 "LBK002345" 5 =
        .error TransferError.recipientNotFound) ∧
    (∀ e, transfer twoUserState 1 "LBK002345" 5 = .error e →
      transferState twoUserState 1 "LBK002345" 5 = twoUserState) ∧
    [TransferError.invalidRequest, TransferError.selfTransfer,
      TransferError.insufficientFunds,
      TransferError.recipientNotFound].Pairwise (· ≠ ·)) :=
  ⟨by decide, transfer_precondition_order twoUserState 1 "LBK002345" 5 userS
    (by decide)⟩

/-- **C3** (counterexample): a transfer to the unknown member id
"LBK999999" with positive amount 999999 above the caller's balance fails
with `insufficientFunds`, not `recipientNotFound`: the fund check runs
before the recipient lookup, so the claim's unconditional
`RecipientNotFound` does not hold for every positive amount. -/
theorem transfer_unknown_recipient_cex :
    (0 : Int) < 999999 ∧
    findByMemberId twoUserState.users "LBK999999" = none ∧
    transfer twoUserState 1 "LBK999999" 999999 ≠
      .error TransferError.recipientNotFound ∧
    transfer twoUserState 1 "LBK999999" 999999 =
      .error TransferError.insufficientFunds :=
  ⟨by decide, by decide, (by intro h; cases h), rfl⟩

/-- **C3** (amended): for a positive amount **not exceeding the caller's
balance** and a non-empty recipient member id matching no account, the
transfer always fails with `recipientNotFound` and the store — balances
and ledger — is unchanged. -/
theorem transfer_unknown_recipient (st : DBState) (callerId : Nat)
    (toMemberId : String) (amount : Int) (A : User)
    (hA : findById st.users callerId = some A) (hne : toMemberId ≠ "")
    (hpos : 0 < amount) (hle : amount ≤ A.points)
    (hnone : findByMemberId st.users toMemberId = none) :
    transfer st callerId toMemberId amount =
      .error TransferError.recipientNotFound ∧
    transferState st callerId toMemberId amount = st := by
  have hself : toMemberId ≠ A.memberID := fun hEq =>
    findByMemberId_eq_none hnone A (mem_of_findById hA) hEq.symm
  have h1 : ¬(toMemberId = "" ∨ amount ≤ 0) := by
    rintro (he | hle2)
    · exact hne he
    · exact absurd hpos (not_lt.2 hle2)
  have h : transfer st callerId toMemberId amount =
      .error TransferError.recipientNotFound := by
    unfold transfer
    rw [hA]
    dsimp only
    rw [if_neg h1, if_neg hself, if_neg (not_lt.2 hle), hnone]
  exact ⟨h, transferState_of_error h⟩

/-- Witness for `transfer_unknown_recipient`: unknown id "LBK999999",
amount 1000 within the caller's 15420 balance. -/
theorem transfer_unknown_recipient_witness :
    (findById twoUserState.users 1 = some userS ∧
      ("LBK999999" : String) ≠ "" ∧ (0 : Int) < 1000 ∧
      (1000 : Int) ≤ userS.points ∧
      findByMemberId twoUserState.users "LBK999999" = none) ∧
    transfer twoUserState 1 "LBK999999" 1000 =
      .error TransferError.recipientNotFound ∧
    transferState twoUserState 1 "LBK999999" 1000 = twoUserState :=
  ⟨⟨by decide, by decide, by decide, by decide, by decide⟩,
   transfer_unknown_recipient twoUserState 1 "LBK999999" 1000 userS
     (by decide) (by decide) (by decide) (by decide) (by decide)⟩

/-- **C6**: a transfer between two distinct accounts whose positive
amount exceeds the sender's balance always fails with
`insufficientFunds`, leaving balances and ledger unchanged. -/
theorem transfer_insufficient_funds (st : DBState) (callerId : Nat)
    (amount : Int) (A B : User) (hwf : WF st)
    (hA : findById st.users callerId = some A) (hB : B ∈ st.users)
    (hAB : A ≠ B) (hpos : 0 < amount) (hlt : A.points < amount) :
    transfer st callerId B.memberID amount =
      .error TransferError.insufficientFunds ∧
    transferState st callerId B.memberID amount = st := by
  obtain ⟨hid, hmid, hmne, -⟩ := hwf
  have hBne : B.memberID ≠ "" := hmne B hB
  have hself : B.memberID ≠ A.memberID := fun hEq =>
    hAB ((eq_of_mem_of_memberID_eq hmid (mem_of_findById hA) hB
      hEq.symm).symm).symm
  have h1 : ¬(B.memberID = "" ∨ amount ≤ 0) := by
    rintro (he | hle)
    · exact hBne he
    · exact absurd hpos (not_lt.2 hle)
  have h : transfer st callerId B.memberID amount =
      .error TransferError.insufficientFunds := by
    unfold transfer
    rw [hA]
    dsimp only
    rw [if_neg h1, if_neg hself, if_pos hlt]
  exact ⟨h, transferState_of_error h⟩

/-- Witness for `transfer_insufficient_funds`: 999999 points from the
first member (balance 15420) to the second. -/
theorem transfer_insufficient_funds_witness :
    (WF twoUserState ∧ findById twoUserState.users 1 = some userS ∧
      userR ∈ twoUserState.users ∧ userS ≠ userR ∧ (0 : Int) < 999999 ∧
      userS.points < 999999) ∧
    transfer twoUserState 1 userR.memberID 999999 =
      .error TransferError.insufficientFunds ∧
    transferState twoUserState 1 userR.memberID 999999 = twoUserState :=
  ⟨⟨by decide, by decide, by decide, by decide, by decide, by decide⟩,
   transfer_insufficient_funds twoUserState 1 999999 userS userR (by decide)
     (by decide) (by decide) (by decide) (by decide) (by decide)⟩

/-- **C7**: a transfer whose recipient member id is the caller's own
always fails with `selfTransfer`, regardless of balance, leaving the
store unchanged. -/
theorem transfer_self_rejected (st : DBState) (callerId : Nat)
    (amount : Int) (A : User) (hwf : WF st)
    (hA : findById st.users callerId = some A) (hpos : 0 < amount) :
    transfer st callerId A.memberID amount =
      .error TransferError.selfTransfer ∧
    transferState st callerId A.memberID amount = st := by
  obtain ⟨-, -, hmne, -⟩ := hwf
  have hAne : A.memberID ≠ "" := hmne A (mem_of_findById hA)
  have h1 : ¬(A.memberID = "" ∨ amount ≤ 0) := by
    rintro (he | hle)
    · exact hAne he
    · exact absurd hpos (not_lt.2 hle)
  have h : transfer st callerId A.memberID amount =
      .error TransferError.selfTransfer := by
    unfold transfer
    rw [hA]
    dsimp only
    rw [if_neg h1, if_pos rfl]
  exact ⟨h, transferState_of_error h⟩

/-- Witness for `transfer_self_rejected`: the first member sending 100
points to their own member id. -/
theorem transfer_self_rejected_witness :
    (WF twoUserState ∧ findById twoUserState.users 1 = some userS ∧
      (0 : Int) < 100) ∧
    transfer twoUserState 1 userS.memberID 100 =
      .error TransferError.selfTransfer ∧
    transferState twoUserState 1 userS.memberID 100 = twoUserState :=
  ⟨⟨by decide, by decide, by decide⟩,
   transfer_self_rejected twoUserState 1 100 userS (by decide) (by decide)
     (by decide)⟩

/-- **C1**: a successful transfer between two distinct accounts debits
the sender by the amount, credits the recipient by the same amount, and
appends exactly one ledger record — never zero, never more than one —
linking sender to recipient with that amount, type "transfer" and status
"completed". -/
theorem transfer_success_spec (st : DBState) (callerId : Nat)
    (toMemberId : String) (amount : Int) (st' : DBState)
    (resp : TransferResponse) (hwf : WF st)
    (h : transfer st callerId toMemberId amount = .ok (st', resp)) :
    ∃ A B,
      findById st.users callerId = some A ∧
      findByMemberId st.users toMemberId = some B ∧
      A.id ≠ B.id ∧ 0 < amount ∧
      findById st'.users A.id = some { A with points := A.points - amount } ∧
      findById st'.users B.id = some { B with points := B.points + amount } ∧
      st'.transactions = st.transactions ++
        [{ id := st.nextTxId
           fromUserID := A.id
           toUserID := B.id
           amount := amount
           type := "transfer"
           status := "completed"
           description := "Transfer to " ++ B.firstName ++ " " ++ B.lastName
           createdAt := st.clock }] := by
  obtain ⟨A, B, hA, hB, hne, hpos, hself, hfunds, hst', hresp⟩ :=
    transfer_ok_elim h
  obtain ⟨hid, -⟩ := hwf
  have hABne : A.id ≠ B.id := transfer_endpoints_ne hid hA hB hself
  have hAid : A.id = callerId := id_of_findById hA
  have hAfind : findById st.users A.id = some A := by rw [hAid]; exact hA
  have hBfind : findById st.users B.id = some B :=
    findById_eq_some_of_mem hid (mem_of_findByMemberId hB)
  refine ⟨A, B, hA, hB, hABne, hpos, ?_, ?_, by rw [hst']⟩
  · rw [hst']
    exact findById_debit_credit_sender st.users A B.id (A.points - amount)
      (B.points + amount) hAfind hABne
  · rw [hst']
    exact findById_debit_credit_recipient st.users B A.id
      (A.points - amount) (B.points + amount) hBfind
      (fun hEq => hABne hEq.symm)

/-- Response of the example 1000-point transfer. -/
def exResp : TransferResponse :=
  { transactionId := 1, remainingPoints := 14420, transferredAmount := 1000
    recipientMemberId := "LBK002345", recipientFirstName := "Naang"
    recipientLastName := "Suayngam" }

/-- Witness for `transfer_success_spec`: the spec's 1000-point scenario. -/
theorem transfer_success_spec_witness :
    (WF twoUserState ∧
      transfer twoUserState 1 "LBK002345" 1000 =
        .ok (afterTransferState, exResp)) ∧
    ∃ A B,
      findById twoUserState.users 1 = some A ∧
      findByMemberId twoUserState.users "LBK002345" = some B ∧
      A.id ≠ B.id ∧ (0 : Int) < 1000 ∧
      findById afterTransferState.users A.id =
        some { A with points := A.points - 1000 } ∧
      findById afterTransferState.users B.id =
        some { B with points := B.points + 1000 } ∧
      afterTransferState.transactions = twoUserState.transactions ++
        [{ id := twoUserState.nextTxId
           fromUserID := A.id
           toUserID := B.id
           amount := 1000
           type := "transfer"
           status := "completed"
           description := "Transfer to " ++ B.firstName ++ " " ++ B.lastName
           createdAt := twoUserState.clock }] :=
  ⟨⟨by decide, rfl⟩,
   transfer_success_spec twoUserState 1 "LBK002345" 1000 afterTransferState
     exResp (by decide) rfl⟩

/-- **C4**: on success, the `remaining_points` field of the response
equals the sender's balance as committed to the store in the post-state,
which is the pre-state balance minus the amount. -/
theorem transfer_remaining_points (st : DBState) (callerId : Nat)
    (toMemberId : String) (amount : Int) (st' : DBState)
    (resp : TransferResponse) (hwf : WF st)
    (h : transfer st callerId toMemberId amount = .ok (st', resp)) :
    ∃ A A',
      findById st.users callerId = some A ∧
      findById st'.users callerId = some A' ∧
      resp.remainingPoints = A'.points ∧
      A'.points = A.points - amount := by
  obtain ⟨A, B, hA, hB, hne, hpos, hself, hfunds, hst', hresp⟩ :=
    transfer_ok_elim h
  obtain ⟨hid, -⟩ := hwf
  have hABne : A.id ≠ B.id := transfer_endpoints_ne hid hA hB hself
  have hAid : A.id = callerId := id_of_findById hA
  have hAfind : findById st.users A.id = some A := by rw [hAid]; exact hA
  refine ⟨A, { A with points := A.points - amount }, hA, ?_, ?_, rfl⟩
  · rw [hst', ← hAid]
    exact findById_debit_credit_sender st.users A B.id (A.points - amount)
      (B.points + amount) hAfind hABne
  · rw [hresp]

/-- Witness for `transfer_remaining_points`: the 1000-point scenario,
where the response and the committed sender row both carry 14420. -/
theorem transfer_remaining_points_witness :
    (WF twoUserState ∧
      transfer twoUserState 1 "LBK002345" 1000 =
        .ok (afterTransferState, exResp)) ∧
    ∃ A A',
      findById twoUserState.users 1 = some A ∧
      findById afterTransferState.users 1 = some A' ∧
      exResp.remainingPoints = A'.points ∧
      A'.points = A.points - 1000 :=
  ⟨⟨by decide, rfl⟩,
   transfer_remaining_points twoUserState 1 "LBK002345" 1000
     afterTransferState exResp (by decide) rfl⟩

/-- **C8**: the account-lookup endpoint returns, for a member id held by
another account, exactly the four public fields (member id, first name,
last name, tier) of that account — the result type carries no balance,
email or internal id — and rejects a lookup of the caller's own member
id with the distinct self-search error. -/
theorem searchUser_public_profile (st : DBState) (callerId : Nat)
    (mid : String) (cur : User) (hwf : WF st)
    (hc : findById st.users callerId = some cur) :
    (∀ u, findByMemberId st.users mid = some u → mid ≠ cur.memberID →
      searchUser st callerId mid =
        .ok { memberID := u.memberID
              firstName := u.firstName
              lastName := u.lastName
              memberTier := u.memberTier }) ∧
    (mid = cur.memberID →
      searchUser st callerId mid = .error SearchError.selfSearch) ∧
    SearchError.selfSearch ≠ SearchError.notFound := by
  obtain ⟨-, -, hmne, -⟩ := hwf
  refine ⟨?_, ?_, by decide⟩
  · intro u hu hself
    have hmid_ne : mid ≠ "" := by
      have hne := hmne u (mem_of_findByMemberId hu)
      rw [memberID_of_findByMemberId hu] at hne
      exact hne
    unfold searchUser
    rw [if_neg hmid_ne, hc]
    dsimp only
    rw [if_neg hself, hu]
  · intro hself
    have hmid_ne : mid ≠ "" := by
      rw [hself]
      exact hmne cur (mem_of_findById hc)
    unfold searchUser
    rw [if_neg hmid_ne, hc]
    dsimp only
    rw [if_pos hself]

/-- Witness for `searchUser_public_profile`: the first member looking up
the second member's id. -/
theorem searchUser_public_profile_witness :
    (WF twoUserState ∧ findById twoUserState.users 1 = some userS) ∧
    (∀ u, findByMemberId twoUserState.users "LBK002345" = some u →
      ("LBK002345" : String) ≠ userS.memberID →
      searchUser twoUserState 1 "LBK002345" =
        .ok { memberID := u.memberID
              firstName := u.firstName
              lastName := u.lastName
              memberTier := u.memberTier }) ∧
    (("LBK002345" : String) = userS.memberID →
      searchUser twoUserState 1 "LBK002345" =
        .error SearchError.selfSearch) ∧
    SearchError.selfSearch ≠ SearchError.notFound :=
  ⟨⟨by decide, by decide⟩,
   searchUser_public_profile twoUserState 1 "LBK002345" userS (by decide)
     (by decide)⟩

/-- **C9**: in every reachable store state, every account balance is a
non-negative integer; registration creates each account with exactly the
fixed starting balance 15420, and every transfer request — successful or
failed — leaves every balance non-negative. -/
theorem reachable_balances_nonneg (st : DBState) (hr : Reachable st) :
    (∀ u ∈ st.users, 0 ≤ u.points) ∧
    (∀ req st' u, register st req = .ok (st', u) →
      u.points = 15420 ∧ u ∈ st'.users) ∧
    (∀ callerId toMemberId amount,
      ∀ w ∈ (transferState st callerId toMemberId amount).users,
        0 ≤ w.points) := by
  have hwf := wf_reachable hr
  refine ⟨hwf.2.2.2.1, ?_, ?_⟩
  · intro req st' u h
    obtain ⟨-, -, -, -, -, hu, hst'⟩ := register_ok_elim h
    constructor
    · rw [hu]
    · rw [hst']
      exact List.mem_append_right _ (List.mem_singleton_self u)
  · intro callerId toMemberId amount
    exact (wf_transferState st callerId toMemberId amount hwf).2.2.2.1

/-- Witness for `reachable_balances_nonneg` at the two-member store. -/
theorem reachable_balances_nonneg_witness :
    Reachable twoUserState ∧
    ((∀ u ∈ twoUserState.users, 0 ≤ u.points) ∧
    (∀ req st' u, register twoUserState req = .ok (st', u) →
      u.points = 15420 ∧ u ∈ st'.users) ∧
    (∀ callerId toMemberId amount,
      ∀ w ∈ (transferState twoUserState callerId toMemberId amount).users,
        0 ≤ w.points)) :=
  ⟨reachable_twoUserState,
   reachable_balances_nonneg twoUserState reachable_twoUserState⟩

/-- **C10**: every transfer request conserves the sum of all balances —
on failure the store is untouched, on success the debit and credit
cancel — and a transfer of the sender's entire (positive) balance to a
distinct existing account succeeds and leaves the sender at exactly 0. -/
theorem transfer_conservation (st : DBState) (hwf : WF st) :
    (∀ callerId toMemberId amount,
      totalPoints (transferState st callerId toMemberId amount).users =
        totalPoints st.users) ∧
    (∀ callerId A B, findById st.users callerId = some A → B ∈ st.users →
      A ≠ B → 0 < A.points →
      ∃ st' resp,
        transfer st callerId B.memberID A.points = .ok (st', resp) ∧
        findById st'.users A.id = some { A with points := 0 } ∧
        resp.remainingPoints = 0) := by
  obtain ⟨hid, hmid, hmne, hpts, -⟩ := hwf
  constructor
  · intro callerId toMemberId amount
    unfold transferState
    cases h : transfer st callerId toMemberId amount with
    | error e => rfl
    | ok p =>
      obtain ⟨st', resp⟩ := p
      obtain ⟨A, B, hA, hB, -, hpos, hself, hfunds, hst', -⟩ :=
        transfer_ok_elim h
      have hABne : A.id ≠ B.id := transfer_endpoints_ne hid hA hB hself
      have hAmem := mem_of_findById hA
      have hBmem := mem_of_findByMemberId hB
      subst hst'
      dsimp only
      have hB1 : B ∈ updatePointsById st.users A.id (A.points - amount) := by
        have hmem := updRow_mem_updatePointsById hBmem A.id
          (A.points - amount)
        rwa [updRow_of_ne A.id (A.points - amount) B
          (fun hEq => hABne hEq.symm)] at hmem
      rw [totalPoints_updatePointsById
            (pairwise_id_updatePointsById hid A.id (A.points - amount)) hB1,
          totalPoints_updatePointsById hid hAmem]
      ring
  · intro callerId A B hA hB hAB hpos
    have hBne : B.memberID ≠ "" := hmne B hB
    have hself : B.memberID ≠ A.memberID := fun hEq =>
      hAB (eq_of_mem_of_memberID_eq hmid (mem_of_findById hA) hB hEq.symm)
    have hBfindm : findByMemberId st.users B.memberID = some B :=
      findByMemberId_eq_some_of_mem hmid hB
    have hintro := transfer_ok_intro hA hBfindm hBne hpos hself
      (le_refl A.points)
    refine ⟨_, _, hintro, ?_, ?_⟩
    · have hAid : A.id = callerId := id_of_findById hA
      have hAfind : findById st.users A.id = some A := by rw [hAid]; exact hA
      have hABne : A.id ≠ B.id := fun hEq =>
        hAB (eq_of_mem_of_id_eq hid (mem_of_findById hA) hB hEq)
      have hfind := findById_debit_credit_sender st.users A B.id
        (A.points - A.points) (B.points + A.points) hAfind hABne
      dsimp only
      rw [hfind, sub_self]
    · dsimp only
      exact sub_self A.points

/-- Witness for `transfer_conservation` at the two-member store. -/
theorem transfer_conservation_witness :
    WF twoUserState ∧
    ((∀ callerId toMemberId amount,
      totalPoints (transferState twoUserState callerId toMemberId
        amount).users = totalPoints twoUserState.users) ∧
    (∀ callerId A B, findById twoUserState.users callerId = some A →
      B ∈ twoUserState.users → A ≠ B → 0 < A.points →
      ∃ st' resp,
        transfer twoUserState callerId B.memberID A.points =
          .ok (st', resp) ∧
        findById st'.users A.id = some { A with points := 0 } ∧
        resp.remainingPoints = 0)) :=
  ⟨by decide, transfer_conservation twoUserState (by decide)⟩

/-- History Reader: for an account with k ledger records touching it,
the recent-history read returns exactly min(k, limit) entries — the
newest ones, i.e. the limit-prefix of the full descending listing —
strictly ordered newest first; each entry stems from a completed
record, carries a negative amount (minus the record's amount) with tag
"sent" exactly when the account was the sender, a positive amount with
tag "received" exactly when it was the recipient, and names the
counterparty row's member id and name.  In a well-formed store the
`createdAt` stamps strictly increase with ledger id, so the pairwise
order below is realised by its first disjunct; what the source does at
*equal* stamps is not decided here — `ORDER BY created_at DESC` names
no secondary key and the stamps come from the wall clock, so no order
among equal stamps is a property of the code. -/
theorem recentFor_spec (st : DBState) (uid : Nat) (limit : Nat)
    (hwf : WF st) :
    (recentFor st uid limit).length =
      min (st.transactions.filter (touches uid)).length limit ∧
    recentFor st uid limit =
      (recentFor st uid
        (st.transactions.filter (touches uid)).length).take limit ∧
    (recentFor st uid limit).Pairwise
      (fun a b => b.createdAt < a.createdAt ∨
        (b.createdAt = a.createdAt ∧ b.id < a.id)) ∧
    ∀ e ∈ recentFor st uid limit,
      ∃ t ∈ st.transactions, touches uid t = true ∧
        e = formatEntry st.users uid t ∧
        e.id = t.id ∧ e.createdAt = t.createdAt ∧ e.status = "completed" ∧
        (t.fromUserID = uid →
          e.amount = -t.amount ∧ e.amount < 0 ∧ e.type = "sent" ∧
          ∃ v ∈ st.users, v.id = t.toUserID ∧
            e.contactMemberId = v.memberID ∧
            e.contactName = v.firstName ++ " " ++ v.lastName) ∧
        (t.fromUserID ≠ uid →
          t.toUserID = uid ∧ e.amount = t.amount ∧ 0 < e.amount ∧
          e.type = "received" ∧
          ∃ v ∈ st.users, v.id = t.fromUserID ∧
            e.contactMemberId = v.memberID ∧
            e.contactName = v.firstName ++ " " ++ v.lastName) := by
  obtain ⟨hid, hmid, hmne, hpts, hult, htlt, hclt, hpw, hshape⟩ := hwf
  have hlpw : (st.transactions.filter (touches uid)).Pairwise
      (fun a b => a.id < b.id ∧ a.createdAt < b.createdAt) :=
    hpw.filter _
  have hlcr : (st.transactions.filter (touches uid)).Pairwise
      (fun a b => a.createdAt < b.createdAt) :=
    hlpw.imp (fun h => h.2)
  have hsort : sortDescByCreated (st.transactions.filter (touches uid)) =
      (st.transactions.filter (touches uid)).reverse :=
    sortDescByCreated_of_sorted _ hlcr
  refine ⟨?_, ?_, ?_, ?_⟩
  · unfold recentFor
    rw [hsort]
    simp [List.length_take, Nat.min_comm]
  · unfold recentFor
    rw [hsort,
      ← List.length_reverse (st.transactions.filter (touches uid)),
      List.take_length, List.map_take]
  · unfold recentFor
    rw [hsort]
    apply List.pairwise_map.mpr
    have hrev : (st.transactions.filter (touches uid)).reverse.Pairwise
        (fun a b => b.id < a.id ∧ b.createdAt < a.createdAt) :=
      List.pairwise_reverse.mpr hlpw
    have htake := List.Pairwise.sublist (List.take_sublist limit _) hrev
    exact htake.imp (fun hab => Or.inl (by
      rw [formatEntry_createdAt, formatEntry_createdAt]
      exact hab.2))
  · intro e he
    unfold recentFor at he
    rw [hsort] at he
    obtain ⟨t, ht_take, rfl⟩ := List.mem_map.1 he
    have htl : t ∈ st.transactions.filter (touches uid) :=
      List.mem_reverse.1 (List.take_subset _ _ ht_take)
    have htx : t ∈ st.transactions := (List.mem_filter.1 htl).1
    have htouch : touches uid t = true := (List.mem_filter.1 htl).2
    obtain ⟨hamt, hty, hstat, hneq, ⟨a, ha, haid⟩, ⟨b, hb, hbid⟩⟩ :=
      hshape t htx
    refine ⟨t, htx, htouch, rfl, formatEntry_id _ _ _,
      formatEntry_createdAt _ _ _, by rw [formatEntry_status, hstat],
      ?_, ?_⟩
    · intro hfrom
      have hbfind : findById st.users t.toUserID = some b := by
        rw [← hbid]
        exact findById_eq_some_of_mem hid hb
      rw [formatEntry_sent hfrom hbfind]
      exact ⟨rfl, neg_lt_zero.mpr hamt, rfl, b, hb, hbid, rfl, rfl⟩
    · intro hfrom
      have htou : t.toUserID = uid := by
        unfold touches at htouch
        simp only [Bool.or_eq_true, beq_iff_eq] at htouch
        rcases htouch with h | h
        · exact absurd h hfrom
        · exact h
      have hafind : findById st.users t.fromUserID = some a := by
        rw [← haid]
        exact findById_eq_some_of_mem hid ha
      rw [formatEntry_received hfrom hafind]
      exact ⟨htou, rfl, hamt, rfl, a, ha, haid, rfl, rfl⟩

/-- `recentFor_spec` instantiated at the sender's history after the
1000-point example transfer, limit 10. -/
theorem recentFor_spec_witness :
    WF afterTransferState ∧
    ((recentFor afterTransferState 1 10).length =
      min (afterTransferState.transactions.filter (touches 1)).length 10 ∧
    recentFor afterTransferState 1 10 =
      (recentFor afterTransferState 1
        (afterTransferState.transactions.filter (touches 1)).length).take
        10 ∧
    (recentFor afterTransferState 1 10).Pairwise
      (fun a b => b.createdAt < a.createdAt ∨
        (b.createdAt = a.createdAt ∧ b.id < a.id)) ∧
    ∀ e ∈ recentFor afterTransferState 1 10,
      ∃ t ∈ afterTransferState.transactions, touches 1 t = true ∧
        e = formatEntry afterTransferState.users 1 t ∧
        e.id = t.id ∧ e.createdAt = t.createdAt ∧ e.status = "completed" ∧
        (t.fromUserID = 1 →
          e.amount = -t.amount ∧ e.amount < 0 ∧ e.type = "sent" ∧
          ∃ v ∈ afterTransferState.users, v.id = t.toUserID ∧
            e.contactMemberId = v.memberID ∧
            e.contactName = v.firstName ++ " " ++ v.lastName) ∧
        (t.fromUserID ≠ 1 →
          t.toUserID = 1 ∧ e.amount = t.amount ∧ 0 < e.amount ∧
          e.type = "received" ∧
          ∃ v ∈ afterTransferState.users, v.id = t.fromUserID ∧
            e.contactMemberId = v.memberID ∧
            e.contactName = v.firstName ++ " " ++ v.lastName)) :=
  ⟨by decide, recentFor_spec afterTransferState 1 10 (by decide)⟩
